import Mathlib

/-!
# Verification of the FoodDetails order-composition module

Shallow embedding of `src/pages/FoodDetails/index.tsx` (restaurant-app).
The component's React state — `food`, `extras`, `isFavorite`,
`foodQuantity` — becomes an explicit state record, and each handler
becomes a state-transition function.  Handlers that can throw at
runtime (a `findIndex` miss followed by a property read on `undefined`)
return `Option`, with `none` modelling the thrown `TypeError`.

Monetary amounts (`price`, `value`) are modelled as rationals;
quantities as integers (so that non-negativity is a real proof
obligation rather than a typing artifact).  The external
currency formatter `formatValue` is an arbitrary function parameter.
-/

namespace RestaurantApp

/-- The `Extra` interface of the source: `{ id, name, value, quantity }`. -/
structure Extra where
  id : ℤ
  name : String
  value : ℚ
  quantity : ℤ
deriving DecidableEq

/-- The `Food` interface of the source:
`{ id, name, description, price, image_url, formattedPrice, extras }`. -/
structure Food where
  id : ℤ
  name : String
  description : String
  price : ℚ
  image_url : String
  formattedPrice : String
  extras : List Extra
deriving DecidableEq

/-- The component's React state.  `food = none` models the initial
`{} as Food` empty-object cast, before any successful load. -/
structure FoodDetailsState where
  food : Option Food
  extras : List Extra
  isFavorite : Bool
  foodQuantity : ℤ
deriving DecidableEq

/-- Initial hook values: `useState({} as Food)`, `useState<Extra[]>([])`,
`useState(false)`, `useState(1)`. -/
def initialState : FoodDetailsState :=
  { food := none, extras := [], isFavorite := false, foodQuantity := 1 }

/-- `loadFood` (lines 74–101).  On a successful fetch it stores the food
with a formatted price and replaces the extras with the fetched extra
definitions, each given `quantity: 0`.  On fetch failure the `catch`
only logs: no state setter runs, so the state is returned unchanged.
`fmt` is the external `formatValue` collaborator. -/
def loadFood (fmt : ℚ → String) (res : Except Unit Food)
    (s : FoodDetailsState) : FoodDetailsState :=
  match res with
  | .error _ => s
  | .ok foodFromApi =>
      { s with
        food := some { foodFromApi with formattedPrice := fmt foodFromApi.price },
        extras := foodFromApi.extras.map fun item => { item with quantity := 0 } }

/-- `checkFavorite` (lines 103–119).  On success, filters the favorites
for the current food id and sets the flag from the filtered length; with
the initial `{} as Food`, `food.id` is `undefined` and matches nothing.
On failure the `catch` only logs and the state is unchanged. -/
def checkFavorite (res : Except Unit (List Food))
    (s : FoodDetailsState) : FoodDetailsState :=
  match res with
  | .error _ => s
  | .ok favorites =>
      { s with
        isFavorite :=
          decide (0 < (favorites.filter fun item =>
            match s.food with
            | some f => item.id == f.id
            | none => false).length) }

/-- The array splice `[...old.slice(0, i), a, ...old.slice(i+1, old.length)]`
used by both extras handlers. -/
def spliceSet (l : List Extra) (i : ℕ) (a : Extra) : List Extra :=
  l.take i ++ [a] ++ l.drop (i + 1)

/-- `handleIncrementExtra` (lines 121–139).  Looks up the index of the
extra by id; when the id is absent `findIndex` yields `-1` and the
updater reads `oldState[-1].quantity`, which throws a `TypeError` —
modelled as `none`.  Otherwise the matching extra's quantity is bumped
by one via the splice. -/
def handleIncrementExtra (targetId : ℤ)
    (s : FoodDetailsState) : Option FoodDetailsState :=
  match s.extras.findIdx? (fun item => item.id == targetId) with
  | none => none
  | some extraIndex =>
      match s.extras[extraIndex]? with
      | none => none
      | some old =>
          some { s with
            extras := spliceSet s.extras extraIndex
              { old with quantity := old.quantity + 1 } }

/-- `handleDecrementExtra` (lines 141–161).  Same lookup; when the id is
absent, the guard reads `extras[-1].quantity` and throws — modelled as
`none`.  When found, the quantity is decremented only when it is
positive; otherwise nothing is updated. -/
def handleDecrementExtra (targetId : ℤ)
    (s : FoodDetailsState) : Option FoodDetailsState :=
  match s.extras.findIdx? (fun item => item.id == targetId) with
  | none => none
  | some extraIndex =>
      match s.extras[extraIndex]? with
      | none => none
      | some old =>
          if old.quantity > 0 then
            some { s with
              extras := spliceSet s.extras extraIndex
                { old with quantity := old.quantity - 1 } }
          else
            some s

/-- `handleIncrementFood` (lines 163–166): unconditional `+1`. -/
def handleIncrementFood (s : FoodDetailsState) : FoodDetailsState :=
  { s with foodQuantity := s.foodQuantity + 1 }

/-- `handleDecrementFood` (lines 168–173): `-1` only when the current
quantity exceeds 1. -/
def handleDecrementFood (s : FoodDetailsState) : FoodDetailsState :=
  if s.foodQuantity > 1 then { s with foodQuantity := s.foodQuantity - 1 }
  else s

/-- `toggleFavorite` (lines 175–188).  The remote delete/post is awaited
first; only after it resolves does `setIsFavorite(old => !old)` run.  If
the remote call rejects, the `catch` only logs and the flag is left as
it was. -/
def toggleFavorite (res : Except Unit Unit)
    (s : FoodDetailsState) : FoodDetailsState :=
  match res with
  | .ok _ => { s with isFavorite := !s.isFavorite }
  | .error _ => s

/-- The numeric amount computed by the `cartTotal` memo (lines 190–199):
`extras.reduce((c, e) => c + e.quantity * e.value, 0) + food.price * foodQuantity`.
The memo then formats this amount with `formatValue`. -/
def cartTotalAmount (food : Food) (extras : List Extra)
    (foodQuantity : ℤ) : ℚ :=
  let extraTotal := extras.foldl
    (fun cumulator extraItem =>
      cumulator + (extraItem.quantity : ℚ) * extraItem.value) 0
  let foodTotal := food.price * (foodQuantity : ℚ)
  extraTotal + foodTotal

/-- The displayed `cartTotal` string: `formatValue(extraTotal + foodTotal)`. -/
def cartTotal (fmt : ℚ → String) (food : Food) (extras : List Extra)
    (foodQuantity : ℤ) : String :=
  fmt (cartTotalAmount food extras foodQuantity)

/-- The order payload posted by `handleFinishOrder` (lines 201–208):
`{ ...food, extras }`, i.e. the food's own fields with its `extras`
field overridden by the current ledger.  Before a successful load the
spread of `{} as Food` carries no food fields, modelled as `none`. -/
def orderPayload (s : FoodDetailsState) : Option Food :=
  s.food.map fun food => { food with extras := s.extras }

/-- One user-visible transition of the component: an effect resolving
(load, favorites check, remote toggle outcome) or a gesture handler
running without throwing. -/
inductive Step : FoodDetailsState → FoodDetailsState → Prop where
  | load (fmt : ℚ → String) (res : Except Unit Food) (s : FoodDetailsState) :
      Step s (loadFood fmt res s)
  | favCheck (res : Except Unit (List Food)) (s : FoodDetailsState) :
      Step s (checkFavorite res s)
  | incExtra (targetId : ℤ) (s s' : FoodDetailsState) :
      handleIncrementExtra targetId s = some s' → Step s s'
  | decExtra (targetId : ℤ) (s s' : FoodDetailsState) :
      handleDecrementExtra targetId s = some s' → Step s s'
  | incFood (s : FoodDetailsState) : Step s (handleIncrementFood s)
  | decFood (s : FoodDetailsState) : Step s (handleDecrementFood s)
  | toggle (res : Except Unit Unit) (s : FoodDetailsState) :
      Step s (toggleFavorite res s)

/-- States reachable from the component's initial hook state. -/
inductive Reachable : FoodDetailsState → Prop where
  | init : Reachable initialState
  | step {s s' : FoodDetailsState} : Reachable s → Step s s' → Reachable s'

/-- An extras-ledger gesture targeting one extra: a tap on its plus or
minus icon. -/
inductive ExOp where
  | inc
  | dec
deriving DecidableEq

/-- Dispatch one gesture on the extra with id `targetId`. -/
def applyOp (targetId : ℤ) (op : ExOp)
    (s : FoodDetailsState) : Option FoodDetailsState :=
  match op with
  | .inc => handleIncrementExtra targetId s
  | .dec => handleDecrementExtra targetId s

/-- Run a sequence of gestures on the extra with id `targetId`,
stopping (with `none`) if any handler throws. -/
def applyOps (targetId : ℤ) (ops : List ExOp)
    (s : FoodDetailsState) : Option FoodDetailsState :=
  match ops with
  | [] => some s
  | op :: rest => (applyOp targetId op s).bind (applyOps targetId rest)

/-- The effect of one gesture on the targeted extra's quantity, as the
handlers implement it: `+1`, and `-1` guarded by positivity. -/
def qstep (op : ExOp) (q : ℤ) : ℤ :=
  match op with
  | .inc => q + 1
  | .dec => if q > 0 then q - 1 else q

/-- The targeted extra's quantity after a gesture sequence. -/
def qFold (ops : List ExOp) (q : ℤ) : ℤ :=
  match ops with
  | [] => q
  | op :: rest => qFold rest (qstep op q)

/-- Frame predicate: `s'` agrees with `s` everywhere except possibly in
the extras-ledger entry at position `i`. -/
def UnchangedOutside (s s' : FoodDetailsState) (i : ℕ) : Prop :=
  s'.food = s.food ∧ s'.isFavorite = s.isFavorite ∧
  s'.foodQuantity = s.foodQuantity ∧
  s'.extras.length = s.extras.length ∧
  ∀ j : ℕ, j ≠ i → s'.extras[j]? = s.extras[j]?

lemma unchangedOutside_refl (s : FoodDetailsState) (i : ℕ) :
    UnchangedOutside s s i :=
  ⟨rfl, rfl, rfl, rfl, fun _ _ => rfl⟩

lemma unchangedOutside_trans {s t u : FoodDetailsState} {i : ℕ}
    (h₁ : UnchangedOutside s t i) (h₂ : UnchangedOutside t u i) :
    UnchangedOutside s u i := by
  obtain ⟨a₁, b₁, c₁, d₁, e₁⟩ := h₁
  obtain ⟨a₂, b₂, c₂, d₂, e₂⟩ := h₂
  exact ⟨a₂.trans a₁, b₂.trans b₁, c₂.trans c₁, d₂.trans d₁,
    fun j hj => (e₂ j hj).trans (e₁ j hj)⟩

/-- The JS splice used by the handlers is `List.set` at an in-range index. -/
lemma spliceSet_eq_set {l : List Extra} {i : ℕ} (a : Extra)
    (h : i < l.length) : spliceSet l i a = l.set i a := by
  rw [List.set_eq_take_append_cons_drop, if_pos h]
  simp [spliceSet]

/-- Setting position `i` with an element still satisfying the search
predicate does not move the first hit of `findIdx?`. -/
lemma findIdx?_set_same {l : List Extra} {p : Extra → Bool} {i : ℕ}
    {a : Extra} (hfind : l.findIdx? p = some i) (ha : p a = true) :
    (l.set i a).findIdx? p = some i := by
  rw [List.findIdx?_eq_some_iff_getElem] at hfind ⊢
  obtain ⟨hlt, _, hmin⟩ := hfind
  refine ⟨by simpa using hlt, ?_, ?_⟩
  · simpa [List.getElem_set_self] using ha
  · intro j hj
    have hne : i ≠ j := by omega
    simpa [List.getElem_set_ne hne] using hmin j hj

/-- One gesture on an extra that is present in the ledger: the handler
does not throw, every other piece of state is untouched, the targeted
entry's quantity evolves by `qstep`, and the entry stays the first
`findIdx?` hit for its id. -/
lemma applyOp_found (op : ExOp) (targetId : ℤ) (s : FoodDetailsState)
    (i : ℕ) (old : Extra)
    (hfind : s.extras.findIdx? (fun item => item.id == targetId) = some i)
    (hget : s.extras[i]? = some old) :
    ∃ s', applyOp targetId op s = some s' ∧
      UnchangedOutside s s' i ∧
      s'.extras[i]? = some { old with quantity := qstep op old.quantity } ∧
      s'.extras.findIdx? (fun item => item.id == targetId) = some i := by
  obtain ⟨hlt, hold⟩ := List.getElem?_eq_some_iff.1 hget
  have hpold : (old.id == targetId) = true := by
    obtain ⟨h₁, h₂, _⟩ := List.findIdx?_eq_some_iff_getElem.1 hfind
    simpa [hold] using h₂
  cases op with
  | inc =>
      refine ⟨{ s with extras := (spliceSet s.extras i
          ({ old with quantity := old.quantity + 1 })) }, ?_, ?_, ?_, ?_⟩
      · simp only [applyOp, handleIncrementExtra, hfind, hget]
      · refine ⟨rfl, rfl, rfl, ?_, ?_⟩
        · rw [spliceSet_eq_set _ hlt]; simp
        · intro j hj
          rw [spliceSet_eq_set _ hlt]
          exact List.getElem?_set_ne (fun h => hj h.symm)
      · rw [spliceSet_eq_set _ hlt]
        simp [List.getElem?_set_self hlt, qstep]
      · rw [spliceSet_eq_set _ hlt]
        exact findIdx?_set_same hfind hpold
  | dec =>
      by_cases hq : old.quantity > 0
      · refine ⟨{ s with extras := (spliceSet s.extras i
            ({ old with quantity := old.quantity - 1 })) }, ?_, ?_, ?_, ?_⟩
        · simp only [applyOp, handleDecrementExtra, hfind, hget, if_pos hq]
        · refine ⟨rfl, rfl, rfl, ?_, ?_⟩
          · rw [spliceSet_eq_set _ hlt]; simp
          · intro j hj
            rw [spliceSet_eq_set _ hlt]
            exact List.getElem?_set_ne (fun h => hj h.symm)
        · rw [spliceSet_eq_set _ hlt]
          simp [List.getElem?_set_self hlt, qstep, if_pos hq]
        · rw [spliceSet_eq_set _ hlt]
          exact findIdx?_set_same hfind hpold
      · refine ⟨s, ?_, unchangedOutside_refl s i, ?_, hfind⟩
        · simp only [applyOp, handleDecrementExtra, hfind, hget, if_neg hq]
        · simpa [qstep, if_neg hq] using hget

/-- A gesture sequence on a present extra: nothing throws, the frame is
preserved, and the targeted quantity is the `qFold` of the sequence. -/
lemma applyOps_found (targetId : ℤ) (ops : List ExOp) :
    ∀ (s : FoodDetailsState) (i : ℕ) (old : Extra),
      s.extras.findIdx? (fun item => item.id == targetId) = some i →
      s.extras[i]? = some old →
      ∃ s', applyOps targetId ops s = some s' ∧
        UnchangedOutside s s' i ∧
        s'.extras[i]? = some { old with quantity := qFold ops old.quantity } ∧
        s'.extras.findIdx? (fun item => item.id == targetId) = some i := by
  induction ops with
  | nil =>
      intro s i old hfind hget
      exact ⟨s, rfl, unchangedOutside_refl s i, hget, hfind⟩
  | cons op rest ih =>
      intro s i old hfind hget
      obtain ⟨t, ht, hframe₁, hget₁, hfind₁⟩ :=
        applyOp_found op targetId s i old hfind hget
      obtain ⟨s', hs', hframe₂, hget₂, hfind₂⟩ :=
        ih t i { old with quantity := qstep op old.quantity } hfind₁ hget₁
      refine ⟨s', ?_, unchangedOutside_trans hframe₁ hframe₂, hget₂, hfind₂⟩
      simp only [applyOps, ht, Option.bind_some]
      exact hs'

/-- The per-step floor keeps the quantity non-negative. -/
lemma qFold_nonneg (ops : List ExOp) :
    ∀ q : ℤ, 0 ≤ q → 0 ≤ qFold ops q := by
  induction ops with
  | nil => intro q hq; simpa [qFold] using hq
  | cons op rest ih =>
      intro q hq
      refine ih (qstep op q) ?_
      cases op <;> simp only [qstep] <;> [omega; split] <;> omega

/-- Lower bound: the final quantity is at least the start plus
increments minus decrements. -/
lemma qFold_count_le (ops : List ExOp) :
    ∀ q : ℤ,
      q + (ops.count ExOp.inc : ℤ) - (ops.count ExOp.dec : ℤ) ≤
        qFold ops q := by
  induction ops with
  | nil => intro q; simp [qFold]
  | cons op rest ih =>
      intro q
      have hstep := ih (qstep op q)
      cases op with
      | inc =>
          have h₁ : (ExOp.inc :: rest).count ExOp.inc =
              rest.count ExOp.inc + 1 := by
            simp [List.count_cons]
          have h₂ : (ExOp.inc :: rest).count ExOp.dec =
              rest.count ExOp.dec := by
            simp [List.count_cons]
          simp only [qFold, qstep] at hstep ⊢
          rw [h₁, h₂]
          push_cast
          omega
      | dec =>
          have hdec : q - 1 ≤ qstep ExOp.dec q := by
            simp only [qstep]; split <;> omega
          have h₁ : (ExOp.dec :: rest).count ExOp.inc =
              rest.count ExOp.inc := by
            simp [List.count_cons]
          have h₂ : (ExOp.dec :: rest).count ExOp.dec =
              rest.count ExOp.dec + 1 := by
            simp [List.count_cons]
          simp only [qFold] at hstep ⊢
          rw [h₁, h₂]
          push_cast
          omega

lemma qFold_append (l₁ l₂ : List ExOp) :
    ∀ q : ℤ, qFold (l₁ ++ l₂) q = qFold l₂ (qFold l₁ q) := by
  induction l₁ with
  | nil => intro q; rfl
  | cons op rest ih =>
      intro q
      simp only [List.cons_append, qFold]
      exact ih (qstep op q)

lemma qFold_replicate_inc (n : ℕ) :
    ∀ q : ℤ, qFold (List.replicate n ExOp.inc) q = q + n := by
  induction n with
  | zero => intro q; simp [qFold]
  | succ n ih =>
      intro q
      rw [List.replicate_succ]
      simp only [qFold, qstep]
      rw [ih]
      push_cast
      ring

lemma qFold_replicate_dec (n : ℕ) :
    ∀ q : ℤ, 0 ≤ q →
      qFold (List.replicate n ExOp.dec) q = max 0 (q - n) := by
  induction n with
  | zero => intro q hq; simp [qFold]; omega
  | succ n ih =>
      intro q hq
      rw [List.replicate_succ]
      simp only [qFold, qstep]
      split
      · rw [ih (q - 1) (by omega)]
        push_cast
        omega
      · rw [ih q hq]
        push_cast
        omega

/-- A successful extras-increment never touches the food quantity. -/
lemma handleIncrementExtra_foodQuantity {targetId : ℤ}
    {s s' : FoodDetailsState}
    (h : handleIncrementExtra targetId s = some s') :
    s'.foodQuantity = s.foodQuantity := by
  unfold handleIncrementExtra at h
  split at h
  · exact absurd h (by simp)
  · split at h
    · exact absurd h (by simp)
    · cases h; rfl

/-- A successful extras-decrement never touches the food quantity. -/
lemma handleDecrementExtra_foodQuantity {targetId : ℤ}
    {s s' : FoodDetailsState}
    (h : handleDecrementExtra targetId s = some s') :
    s'.foodQuantity = s.foodQuantity := by
  unfold handleDecrementExtra at h
  split at h
  · exact absurd h (by simp)
  · split at h
    · exact absurd h (by simp)
    · split at h
      · cases h; rfl
      · cases h; rfl

/-- One transition cannot drop the food quantity below 1. -/
lemma step_foodQuantity_ge {s s' : FoodDetailsState} (hstep : Step s s')
    (h : 1 ≤ s.foodQuantity) : 1 ≤ s'.foodQuantity := by
  cases hstep with
  | load fmt res _ => cases res <;> simpa [loadFood] using h
  | favCheck res _ => cases res <;> simpa [checkFavorite] using h
  | incExtra targetId _ s' he =>
      rw [handleIncrementExtra_foodQuantity he]; exact h
  | decExtra targetId _ s' he =>
      rw [handleDecrementExtra_foodQuantity he]; exact h
  | incFood _ =>
      show 1 ≤ s.foodQuantity + 1
      omega
  | decFood _ =>
      unfold handleDecrementFood
      by_cases hq : s.foodQuantity > 1
      · rw [if_pos hq]
        show 1 ≤ s.foodQuantity - 1
        omega
      · rw [if_neg hq]
        exact h
  | toggle res _ => cases res <;> simpa [toggleFavorite] using h

/-- The food-quantity floor: every reachable state keeps it at least 1. -/
lemma reachable_foodQuantity {s : FoodDetailsState} (h : Reachable s) :
    1 ≤ s.foodQuantity := by
  induction h with
  | init => exact le_refl 1
  | step _ hstep ih => exact step_foodQuantity_ge hstep ih

/-- The source's `reduce` over the extras, rewritten as a mapped sum. -/
lemma foldl_money (l : List Extra) :
    ∀ c : ℚ,
      l.foldl (fun cumulator extraItem =>
          cumulator + (extraItem.quantity : ℚ) * extraItem.value) c =
        c + (l.map fun e => (e.quantity : ℚ) * e.value).sum := by
  induction l with
  | nil => intro c; simp
  | cons x xs ih =>
      intro c
      simp only [List.foldl_cons, List.map_cons, List.sum_cons, ih]
      ring

/-- A stand-in for the external `formatValue` collaborator, used only to
build concrete sample states. -/
def fmtFix : ℚ → String := fun _ => "R$ 0,00"

/-- A concrete catalog response: the spec's scenario food
`{id: 1, price: 10.00, extras: [{id: 11, value: 2.00}]}` (the fetched
extra arrives with a stale quantity, which the load must zero). -/
def apiFoodFix : Food :=
  { id := 1
    name := "Ao molho"
    description := "Macarrao ao molho branco"
    price := 10
    image_url := "ao-molho.png"
    formattedPrice := ""
    extras := [{ id := 11, name := "Bacon", value := 2, quantity := 5 }] }

/-- The food record as stored by a successful load of `apiFoodFix`. -/
def loadedFood : Food :=
  { apiFoodFix with formattedPrice := fmtFix apiFoodFix.price }

/-- The state right after the initial mount successfully loads
`apiFoodFix`. -/
def loadedState : FoodDetailsState :=
  loadFood fmtFix (.ok apiFoodFix) initialState

/-- A loaded state whose food is currently marked favorite. -/
def favoriteState : FoodDetailsState :=
  { loadedState with isFavorite := true }

/-- Claim C1: in every reachable state after a successful food load, the
amount the `cartTotal` memo formats equals
`foodQuantity × food.price + Σ (extra.quantity × extra.value)` over the
current extras.  The amount is a pure function of the current state, so
no stale cached total can be observed after a mutation. -/
theorem claim_C1_cart_total (s : FoodDetailsState) (f : Food)
    (hreach : Reachable s) (hfood : s.food = some f) :
    cartTotalAmount f s.extras s.foodQuantity =
      (s.foodQuantity : ℚ) * f.price +
        (s.extras.map fun e => (e.quantity : ℚ) * e.value).sum := by
  unfold cartTotalAmount
  rw [foldl_money]
  ring

theorem claim_C1_cart_total_witness :
    cartTotalAmount loadedFood loadedState.extras loadedState.foodQuantity =
      (loadedState.foodQuantity : ℚ) * loadedFood.price +
        (loadedState.extras.map fun e => (e.quantity : ℚ) * e.value).sum :=
  claim_C1_cart_total loadedState loadedFood
    (Reachable.step Reachable.init
      (Step.load fmtFix (.ok apiFoodFix) initialState)) rfl

/-- Claim C3: in every reachable state the food quantity is at least 1;
`handleIncrementFood` adds 1 unconditionally and `handleDecrementFood`
subtracts 1 floored at 1, so no operation can make it reach zero. -/
theorem claim_C3_food_quantity_floor (s : FoodDetailsState)
    (h : Reachable s) :
    1 ≤ s.foodQuantity ∧
    (handleIncrementFood s).foodQuantity = s.foodQuantity + 1 ∧
    (handleDecrementFood s).foodQuantity = max 1 (s.foodQuantity - 1) := by
  have hinv := reachable_foodQuantity h
  refine ⟨hinv, rfl, ?_⟩
  unfold handleDecrementFood
  by_cases hq : s.foodQuantity > 1
  · rw [if_pos hq]
    show s.foodQuantity - 1 = max 1 (s.foodQuantity - 1)
    omega
  · rw [if_neg hq]
    show s.foodQuantity = max 1 (s.foodQuantity - 1)
    omega

theorem claim_C3_food_quantity_floor_witness :
    1 ≤ initialState.foodQuantity ∧
    (handleIncrementFood initialState).foodQuantity =
      initialState.foodQuantity + 1 ∧
    (handleDecrementFood initialState).foodQuantity =
      max 1 (initialState.foodQuantity - 1) :=
  claim_C3_food_quantity_floor initialState Reachable.init

/-- Claim C5 is false as stated: a successful load does not reset the
food quantity to 1.  From a session state with `foodQuantity = 2`
(reachable by one increment), a successful load of `apiFoodFix` leaves
`foodQuantity` at 2, not 1. -/
theorem claim_C5_counterexample :
    (loadFood fmtFix (.ok apiFoodFix)
      (handleIncrementFood initialState)).foodQuantity = 2 ∧
    (2 : ℤ) ≠ 1 :=
  ⟨rfl, by decide⟩

/-- Claim C5 (amended): a successful load initializes every extra in the
ledger with quantity 0 (no extra quantity carries over), but leaves the
food quantity unchanged — `loadFood` never writes `foodQuantity`. -/
theorem claim_C5_amended (fmt : ℚ → String) (foodFromApi : Food)
    (s : FoodDetailsState) :
    (loadFood fmt (.ok foodFromApi) s).extras =
      (foodFromApi.extras.map fun item => { item with quantity := 0 }) ∧
    (∀ e ∈ (loadFood fmt (.ok foodFromApi) s).extras, e.quantity = 0) ∧
    (loadFood fmt (.ok foodFromApi) s).foodQuantity = s.foodQuantity := by
  refine ⟨rfl, ?_, rfl⟩
  intro e he
  obtain ⟨x, _, rfl⟩ := List.mem_map.1 he
  rfl

/-- Claim C7 is false as stated: the favorite toggle is not optimistic.
When the remote write fails, the local flag has not been flipped at all
(rather than staying flipped): a failed toggle from the favorite state
leaves the flag `true`, whereas the claim predicts `false`. -/
theorem claim_C7_counterexample :
    toggleFavorite (.error ()) favoriteState = favoriteState ∧
    (toggleFavorite (.error ()) favoriteState).isFavorite ≠
      (!favoriteState.isFavorite) :=
  ⟨rfl, by decide⟩

/-- Claim C7 (amended): the local flag is flipped only after the remote
write succeeds; if the remote write fails, the flag (and the whole
state) is left unchanged, so there is nothing to roll back. -/
theorem claim_C7_amended (s : FoodDetailsState) (err : Unit) :
    toggleFavorite (.error err) s = s ∧
    (toggleFavorite (.ok ()) s).isFavorite = !s.isFavorite :=
  ⟨rfl, rfl⟩

/-- Claim C8: toggling the favorite flag twice, with both remote calls
succeeding, returns the state unchanged (round-trip law). -/
theorem claim_C8_round_trip (s : FoodDetailsState) :
    toggleFavorite (.ok ()) (toggleFavorite (.ok ()) s) = s := by
  cases s
  simp [toggleFavorite]

/-- Claim C9: when the food fetch fails, `loadFood` leaves the whole
state unchanged — food record, extras ledger and food quantity — so no
partially-populated food is observable (load is atomic on error). -/
theorem claim_C9_load_failure_atomic (fmt : ℚ → String) (err : Unit)
    (s : FoodDetailsState) :
    loadFood fmt (.error err) s = s :=
  rfl

/-- Claim C2 is false as stated: on the loaded state whose extra 11
starts at quantity 0, the sequence decrement-then-increment ends with
quantity 1, while `max(0, #inc - #dec) = max(0, 1 - 1) = 0` — the
per-step floor makes the decrement a no-op instead of a debt. -/
theorem claim_C2_counterexample :
    (applyOps 11 [ExOp.dec, ExOp.inc] loadedState).map
        (fun t => t.extras.map Extra.quantity) = some [1] ∧
    ¬ (applyOps 11 [ExOp.dec, ExOp.inc] loadedState).map
        (fun t => t.extras.map Extra.quantity) =
      some [max 0 (([ExOp.dec, ExOp.inc].count ExOp.inc : ℤ) -
        ([ExOp.dec, ExOp.inc].count ExOp.dec : ℤ))] := by
  exact ⟨by decide, by decide⟩

/-- Claim C2 (amended): for every gesture sequence on an extra present
in the ledger with quantity 0, no handler throws, the quantity after the
sequence is the per-step fold `qFold` of the sequence; it is never below
0 (this holds for every sequence, hence at every intermediate point) and
is at least `max(0, #inc - #dec)`, with equality whenever all the
increments precede all the decrements. -/
theorem claim_C2_amended (s : FoodDetailsState) (targetId : ℤ) (i : ℕ)
    (old : Extra) (ops : List ExOp)
    (hfind : s.extras.findIdx? (fun item => item.id == targetId) = some i)
    (hget : s.extras[i]? = some old) (hq0 : old.quantity = 0) :
    ∃ s', applyOps targetId ops s = some s' ∧
      s'.extras[i]?.map Extra.quantity = some (qFold ops 0) ∧
      0 ≤ qFold ops 0 ∧
      max 0 ((ops.count ExOp.inc : ℤ) - (ops.count ExOp.dec : ℤ)) ≤
        qFold ops 0 ∧
      ∀ (m n : ℕ),
        ops = List.replicate m ExOp.inc ++ List.replicate n ExOp.dec →
        qFold ops 0 = max 0 ((m : ℤ) - (n : ℤ)) := by
  obtain ⟨s', hs', _, hget', _⟩ :=
    applyOps_found targetId ops s i old hfind hget
  have h0 := qFold_nonneg ops 0 le_rfl
  refine ⟨s', hs', ?_, h0, ?_, ?_⟩
  · rw [hget', hq0]
    rfl
  · refine max_le h0 ?_
    have := qFold_count_le ops 0
    omega
  · intro m n hops
    subst hops
    rw [qFold_append, qFold_replicate_inc m 0,
      qFold_replicate_dec n (0 + (m : ℤ)) (by omega)]
    omega

theorem claim_C2_amended_witness :
    ∃ s', applyOps 11 [ExOp.inc, ExOp.inc, ExOp.dec] loadedState =
        some s' ∧
      s'.extras[0]?.map Extra.quantity =
        some (qFold [ExOp.inc, ExOp.inc, ExOp.dec] 0) ∧
      0 ≤ qFold [ExOp.inc, ExOp.inc, ExOp.dec] 0 ∧
      max 0 (([ExOp.inc, ExOp.inc, ExOp.dec].count ExOp.inc : ℤ) -
          ([ExOp.inc, ExOp.inc, ExOp.dec].count ExOp.dec : ℤ)) ≤
        qFold [ExOp.inc, ExOp.inc, ExOp.dec] 0 ∧
      ∀ (m n : ℕ),
        [ExOp.inc, ExOp.inc, ExOp.dec] =
          List.replicate m ExOp.inc ++ List.replicate n ExOp.dec →
        qFold [ExOp.inc, ExOp.inc, ExOp.dec] 0 =
          max 0 ((m : ℤ) - (n : ℤ)) :=
  claim_C2_amended loadedState 11 0
    { id := 11, name := "Bacon", value := 2, quantity := 0 }
    [ExOp.inc, ExOp.inc, ExOp.dec] (by decide) (by decide) rfl

/-- Claim C4 is false as stated: incrementing an extra id that is absent
from the ledger is not a silent no-op.  `findIndex` returns `-1` and the
updater reads `oldState[-1].quantity`, throwing a `TypeError` (modelled
as `none`): on the initial empty ledger, incrementing id 99 produces the
failure value, not the unchanged state. -/
theorem claim_C4_counterexample :
    handleIncrementExtra 99 initialState = none ∧
    handleIncrementExtra 99 initialState ≠ some initialState := by
  exact ⟨rfl, by decide⟩

/-- Claim C4 (amended): for every ledger state and every extra id not
present in it, `handleIncrementExtra` fails by throwing (modelled as
`none`) instead of silently leaving the state unchanged; no updated
state is produced. -/
theorem claim_C4_amended (s : FoodDetailsState) (targetId : ℤ)
    (habsent : ∀ e ∈ s.extras, e.id ≠ targetId) :
    handleIncrementExtra targetId s = none := by
  have hfind : s.extras.findIdx? (fun item => item.id == targetId) =
      none := by
    rw [List.findIdx?_eq_none_iff]
    intro x hx
    simpa using habsent x hx
  simp [handleIncrementExtra, hfind]

theorem claim_C4_amended_witness :
    handleIncrementExtra 99 loadedState = none :=
  claim_C4_amended loadedState 99 (by decide)

/-- Claim C6 is false as stated: the submitted payload `{...food, extras}`
does not contain the current food quantity.  Two loaded states identical
except for `foodQuantity` (2 versus 99) produce the same payload. -/
theorem claim_C6_counterexample :
    orderPayload { loadedState with foodQuantity := 2 } =
      orderPayload { loadedState with foodQuantity := 99 } ∧
    (2 : ℤ) ≠ 99 :=
  ⟨rfl, by decide⟩

/-- Claim C6 (amended): for every loaded state, the submission payload
carries the food fields and the current extras array with the current
quantities, zero-quantity extras included (none filtered out), but not
the food quantity — the payload is invariant under changes to
`foodQuantity`. -/
theorem claim_C6_amended (s : FoodDetailsState) (f : Food)
    (hfood : s.food = some f) :
    orderPayload s = some { f with extras := s.extras } ∧
    (orderPayload s).map Food.extras = some s.extras ∧
    ∀ q : ℤ, orderPayload { s with foodQuantity := q } = orderPayload s := by
  refine ⟨?_, ?_, fun q => rfl⟩
  · rw [orderPayload, hfood]
    rfl
  · rw [orderPayload, hfood]
    rfl

theorem claim_C6_amended_witness :
    orderPayload loadedState =
      some { loadedFood with extras := loadedState.extras } ∧
    (orderPayload loadedState).map Food.extras =
      some loadedState.extras ∧
    ∀ q : ℤ,
      orderPayload { loadedState with foodQuantity := q } =
        orderPayload loadedState :=
  claim_C6_amended loadedState loadedFood rfl

/-- Claim C10: on an extra present in the ledger, the increment and
decrement handlers succeed and change at most the quantity of the
targeted entry: the food, the favorite flag, the food quantity, the
ledger's length and every other position are unchanged, and the
targeted entry keeps its id, name and value. -/
theorem claim_C10_frame (s : FoodDetailsState) (targetId : ℤ) (i : ℕ)
    (old : Extra)
    (hfind : s.extras.findIdx? (fun item => item.id == targetId) = some i)
    (hget : s.extras[i]? = some old) :
    (∃ s', handleIncrementExtra targetId s = some s' ∧
      UnchangedOutside s s' i ∧
      s'.extras[i]?.map Extra.id = some old.id ∧
      s'.extras[i]?.map Extra.name = some old.name ∧
      s'.extras[i]?.map Extra.value = some old.value) ∧
    (∃ s', handleDecrementExtra targetId s = some s' ∧
      UnchangedOutside s s' i ∧
      s'.extras[i]?.map Extra.id = some old.id ∧
      s'.extras[i]?.map Extra.name = some old.name ∧
      s'.extras[i]?.map Extra.value = some old.value) := by
  constructor
  · obtain ⟨s', hs', hframe, hget', _⟩ :=
      applyOp_found ExOp.inc targetId s i old hfind hget
    exact ⟨s', hs', hframe, by rw [hget']; rfl, by rw [hget']; rfl,
      by rw [hget']; rfl⟩
  · obtain ⟨s', hs', hframe, hget', _⟩ :=
      applyOp_found ExOp.dec targetId s i old hfind hget
    exact ⟨s', hs', hframe, by rw [hget']; rfl, by rw [hget']; rfl,
      by rw [hget']; rfl⟩

theorem claim_C10_frame_witness :
    (∃ s', handleIncrementExtra 11 loadedState = some s' ∧
      UnchangedOutside loadedState s' 0 ∧
      s'.extras[0]?.map Extra.id = some (11 : ℤ) ∧
      s'.extras[0]?.map Extra.name = some "Bacon" ∧
      s'.extras[0]?.map Extra.value = some (2 : ℚ)) ∧
    (∃ s', handleDecrementExtra 11 loadedState = some s' ∧
      UnchangedOutside loadedState s' 0 ∧
      s'.extras[0]?.map Extra.id = some (11 : ℤ) ∧
      s'.extras[0]?.map Extra.name = some "Bacon" ∧
      s'.extras[0]?.map Extra.value = some (2 : ℚ)) :=
  claim_C10_frame loadedState 11 0
    { id := 11, name := "Bacon", value := 2, quantity := 0 }
    (by decide) (by decide)

end RestaurantApp
